import Mathlib

/-!
Verification of the invoice/ledger reconciliation program (main.py) against its
natural-language specification.

The embedding below translates the relevant Python functions into Lean:
pure string operations act on the character list underlying a String, numeric
values are modelled as exact rationals, and fallible operations (Python
exceptions such as ValueError from float() or IndexError from list indexing)
are modelled with Option.
-/

set_option maxRecDepth 4000

/-- Model of Python single-character str.replace: replace every occurrence of
the character a by the character b. -/
def pyReplace (a b : Char) (s : String) : String :=
  String.mk (s.data.map (fun c => if c = a then b else c))

/-- Model of Python str.replace with empty replacement for a single character:
remove every occurrence of the character a. -/
def pyRemove (a : Char) (s : String) : String :=
  String.mk (s.data.filter (fun c => c != a))

/-- Model of Python str.strip() on the character list: drop leading and
trailing whitespace. -/
def stripChars (cs : List Char) : List Char :=
  ((cs.dropWhile Char.isWhitespace).reverse.dropWhile Char.isWhitespace).reverse

/-- Model of Python str.strip(). -/
def pyStrip (s : String) : String :=
  String.mk (stripChars s.data)

/-- Model of Python str.split(sep) for a single-character separator: split at
every occurrence of sep, keeping empty segments (the result is always
non-empty). -/
def pySplitChar (sep : Char) : List Char → List (List Char)
  | [] => [[]]
  | c :: rest =>
    match pySplitChar sep rest with
    | [] => [[]]
    | g :: gs => if c = sep then [] :: g :: gs else (c :: g) :: gs

/-- Model of Python str.split(sep) returning strings. -/
def pySplit (sep : Char) (s : String) : List String :=
  (pySplitChar sep s.data).map String.mk

/-- Model of Python str.startswith(p) on character lists. -/
def pyStartsWith : List Char → List Char → Bool
  | [], _ => true
  | _ :: _, [] => false
  | p :: ps, c :: cs => p = c && pyStartsWith ps cs

/-- Model of Python str.startswith(p) for strings: first argument is the
pattern p, second the string searched. -/
def sStarts (p s : String) : Bool :=
  pyStartsWith p.data s.data

/-- Model of Python substring containment (pat in hay) on character lists. -/
def pyContains (hay pat : List Char) : Bool :=
  (List.range (hay.length + 1)).any (fun i => pyStartsWith pat (hay.drop i))

/-- Model of Python substring containment for strings: true when pat occurs
inside hay. -/
def sContains (hay pat : String) : Bool :=
  pyContains hay.data pat.data

/-- Numeric value of a list of decimal digit characters, most significant
first (value of the empty list is 0, matching how Python float() treats a
missing integer or fractional part next to the decimal point). -/
def natOfDigits (l : List Char) : ℕ :=
  l.foldl (fun a c => 10 * a + (c.toNat - 48)) 0

/-- Core of the model of Python float(): parse an unsigned decimal numeral,
made of digits with at most one decimal point and at least one digit, and
scale by the already-extracted sign. Exponents, infinities, NaN, underscores
and surrounding whitespace accepted by Python float() are not modelled; no
input handled by this program uses them. -/
def pyFloatCore (sgn : ℚ) (rest : List Char) : Option ℚ :=
  let ip := rest.takeWhile (fun c => c != '.')
  match rest.dropWhile (fun c => c != '.') with
  | [] =>
    if ip.all Char.isDigit && !ip.isEmpty then some (sgn * natOfDigits ip) else none
  | _ :: fp =>
    if (ip ++ fp).all Char.isDigit && !(ip ++ fp).isEmpty then
      some (sgn * ((natOfDigits ip : ℚ) + (natOfDigits fp : ℚ) / 10 ^ fp.length))
    else
      none

/-- Model of Python float() on a character list: an optional sign followed by
an unsigned decimal numeral; any other input raises ValueError, modelled as
none. -/
def pyFloatChars : List Char → Option ℚ
  | [] => pyFloatCore 1 []
  | c :: rest =>
    if c = '-' then pyFloatCore (-1) rest
    else if c = '+' then pyFloatCore 1 rest
    else pyFloatCore 1 (c :: rest)

/-- Model of Python float() on strings. -/
def pyFloat (s : String) : Option ℚ :=
  pyFloatChars s.data

/-- Embedding of convert_str_to_float (main.py lines 97-111): remove every
period (thousands separator), turn the comma into a period, and parse as a
float; a ValueError from float() is modelled as none. -/
def convert_str_to_float (item : String) : Option ℚ :=
  pyFloat (pyReplace ',' '.' (pyRemove '.' item))

/-- A parsed invoice line at the string stage, as built by format_main_table
(main.py lines 84-93): the four numeric cells are still the normalised
strings stored in the result dictionaries. -/
structure LineItemRaw where
  matricula : String
  fecha : Option String
  articulo : String
  descripcion : String
  cantidad : String
  precio : String
  descuento : String
  total : String
  deriving Repr, DecidableEq

/-- Item construction for a data row of format_main_table (main.py lines
72-93): cells 0-5 are article, description, quantity, price, discount and
total; an empty numeric cell defaults to "0", otherwise the decimal comma
becomes a period and the discount additionally loses its percent signs.
Callers guarantee the row has at least 6 cells (a shorter data row raises
IndexError in Python, modelled as none in processRows). -/
def dataItem (matricula : String) (fecha : Option String) (line : List String) : LineItemRaw :=
  { matricula := matricula
    fecha := fecha
    articulo := line.getD 0 ""
    descripcion := line.getD 1 ""
    cantidad := if line.getD 2 "" = "" then "0" else pyReplace ',' '.' (line.getD 2 "")
    precio := if line.getD 3 "" = "" then "0" else pyReplace ',' '.' (line.getD 3 "")
    descuento :=
      if line.getD 4 "" = "" then "0" else pyReplace ',' '.' (pyRemove '%' (line.getD 4 ""))
    total := if line.getD 5 "" = "" then "0" else pyReplace ',' '.' (line.getD 5 "") }

/-- The row loop of format_main_table (main.py lines 53-93), as a fold over
the rows after the header carrying the running matricula and fecha context.
Fully blank rows and rows mentioning ABONO are skipped; a row with both an
ALBARAN-cell and an A:-cell updates the context and emits nothing; any other
row is a data row read at positions 0-5 (none models the IndexError Python
raises when such a row has fewer than 6 cells). -/
def processRows : List (List String) → String → Option String → Option (List LineItemRaw)
  | [], _, _ => some []
  | line :: rest, matricula, fecha =>
    if line.all (fun c => c == "") then processRows rest matricula fecha
    else if line.any (fun c => sContains c "ABONO") then processRows rest matricula fecha
    else
      match line.find? (fun c => sStarts "ALBARAN" c), line.find? (fun c => sStarts "A:" c) with
      | some albaranCell, some matriculaCell =>
        processRows rest (pyStrip ((pySplit ':' matriculaCell).getD 1 ""))
          (some ((pySplit ' ' albaranCell).getLastD ""))
      | _, _ =>
        if line.length < 6 then none
        else (processRows rest matricula fecha).map (dataItem matricula fecha line :: ·)

/-- Embedding of format_main_table (main.py lines 25-94): find the first row
containing a cell equal to the header marker; without a header the page
contributes no items (the Python code warns and returns an empty list);
otherwise run the stateful row loop on the rows after the header with empty
initial context. -/
def format_main_table (table : List (List String)) : Option (List LineItemRaw) :=
  match table.findIdx? (fun line => line.contains "Artículo") with
  | none => some []
  | some idx => processRows (table.drop (idx + 1)) "" none

/-- A fully numeric invoice line, as obtained after read_pdf applies
astype(float) to the four numeric columns (main.py lines 180-185). -/
structure LineItem where
  matricula : String
  fecha : Option String
  articulo : String
  descripcion : String
  cantidad : ℚ
  precio : ℚ
  descuento : ℚ
  total : ℚ
  deriving Repr, DecidableEq

/-- Numeric conversion of one parsed line, modelling the astype(float) calls
of read_pdf (main.py lines 182-185): each of the four normalised strings goes
through Python float(); a failure on any of them aborts the whole document
read (pandas raises), modelled as none. -/
def toNumeric (it : LineItemRaw) : Option LineItem := do
  let cantidad ← pyFloat it.cantidad
  let precio ← pyFloat it.precio
  let descuento ← pyFloat it.descuento
  let total ← pyFloat it.total
  pure
    { matricula := it.matricula
      fecha := it.fecha
      articulo := it.articulo
      descripcion := it.descripcion
      cantidad := cantidad
      precio := precio
      descuento := descuento
      total := total }

/-- Item pipeline of read_pdf for one page table (main.py lines 160-185):
parse the table and convert every line to numeric form. -/
def read_pdf_items (table : List (List String)) : Option (List LineItem) := do
  let raw ← format_main_table table
  raw.mapM toNumeric

/-- Importe parsing of parse_spreadsheet_data (main.py lines 312-320):
replace the decimal comma by a period; a leading minus is stripped and the
parsed remainder negated; a ValueError from float() is modelled as none (the
caller skips such rows). -/
def parseImporte (importe_str : String) : Option ℚ :=
  let importe_clean := pyReplace ',' '.' importe_str
  if sStarts "-" importe_clean then (pyFloat (importe_clean.drop 1)).map (fun x => -x)
  else pyFloat importe_clean

/-- Anchor search of parse_spreadsheet_data (main.py lines 276-283): the
first grid position, scanning rows in order and cells left to right, whose
cell contains the fortnight key as a substring. -/
def findAnchor (data : List (List String)) (key : String) : Option (ℕ × ℕ) :=
  match data.findIdx? (fun row => row.any (fun cell => sContains cell key)) with
  | none => none
  | some i =>
    match (data.getD i []).findIdx? (fun cell => sContains cell key) with
    | none => none
    | some j => some (i, j)

/-- One ledger row of parse_spreadsheet_data (main.py lines 303-326): read
and strip the matricula and importe cells (empty when out of range, though
the caller's length guard makes that unreachable); an empty importe cell or
one that fails numeric conversion yields no entry. -/
def ledgerRowEntry (matriculaCol importeCol : ℕ) (row : List String) : Option (String × ℚ) :=
  let matricula := if matriculaCol < row.length then pyStrip (row.getD matriculaCol "") else ""
  let importe_str := if importeCol < row.length then pyStrip (row.getD importeCol "") else ""
  if importe_str = "" then none
  else (parseImporte importe_str).map (fun v => (matricula, v))

/-- Row loop of parse_spreadsheet_data (main.py lines 296-326): walk the data
rows, stopping at the first row too short to hold both target columns, and
collect the entries of the remaining rows, skipping rows without a usable
importe. -/
def extractLedgerRows (matriculaCol importeCol : ℕ) : List (List String) → List (String × ℚ)
  | [] => []
  | row :: rest =>
    if row.length ≤ max matriculaCol importeCol then []
    else
      match ledgerRowEntry matriculaCol importeCol row with
      | none => extractLedgerRows matriculaCol importeCol rest
      | some e => e :: extractLedgerRows matriculaCol importeCol rest

/-- Embedding of parse_spreadsheet_data (main.py lines 251-329): locate the
fortnight anchor (returning no entries when absent), take the matricula
column at anchor offset +2 and the importe column at offset +3, and extract
entries starting two rows below the anchor. -/
def parse_spreadsheet_data (data : List (List String)) (fortnight : String) : List (String × ℚ) :=
  match findAnchor data ("Quincena " ++ fortnight) with
  | none => []
  | some (i, j) => extractLedgerRows (j + 2) (j + 3) (data.drop (i + 2))

/-- The cells of a potential-match record that compare_pdf_spreadsheet copies
out of a PDF item (main.py lines 430-434): article code, description and line
total. -/
structure PdfRef where
  articulo : String
  descripcion : String
  total : ℚ
  deriving Repr, DecidableEq

/-- Projection of a line item to the cells recorded in potential matches. -/
def LineItem.ref (it : LineItem) : PdfRef :=
  { articulo := it.articulo, descripcion := it.descripcion, total := it.total }

/-- A potential-match record of compare_pdf_spreadsheet (main.py lines
425-477), tagged exactly like the Python type field: exact_item_match,
combo_match or closest_match, each carrying the recorded spreadsheet amount
and difference. -/
inductive Cand where
  | exactItem (pdfItem : PdfRef) (spreadsheetAmount diff : ℚ)
  | combo (first second : PdfRef) (comboTotal spreadsheetAmount diff : ℚ)
  | closest (pdfItem : PdfRef) (spreadsheetAmount diff : ℚ)
  deriving Repr, DecidableEq

/-- All unordered pairs of distinct positions of a list, enumerated exactly
like the nested loops of main.py lines 442-443: (i, j) with i < j in
lexicographic order. -/
def allPairs : List α → List (α × α)
  | [] => []
  | a :: t => (t.map (fun b => (a, b))) ++ allPairs t

/-- The idxmin-based closest item of main.py line 467: the first list element
whose line total has the smallest absolute distance from the target amount. -/
def closestItem (items : List LineItem) (amt : ℚ) : Option LineItem :=
  items.foldl
    (fun acc it =>
      match acc with
      | none => some it
      | some b => if |it.total - amt| < |b.total - amt| then some it else acc)
    none

/-- The potential-match search of compare_pdf_spreadsheet (main.py lines
420-477) for one vehicle: nothing when the spreadsheet amount is exactly 0;
otherwise all single items within 0.01 of the amount, followed by all item
pairs whose sum is within 0.01 of it (the pair loop runs regardless of
whether singles matched; for fewer than two items it finds nothing), and only
when both scans found nothing, the closest single item. -/
def potentialMatches (items : List LineItem) (amt : ℚ) : List Cand :=
  if amt = 0 then []
  else
    let singles :=
      (items.filter (fun it => decide (|it.total - amt| < 1 / 100))).map
        (fun it => Cand.exactItem it.ref amt (it.total - amt))
    let combos :=
      (allPairs items).filterMap
        (fun p =>
          if |p.1.total + p.2.total - amt| < 1 / 100 then
            some (Cand.combo p.1.ref p.2.ref (p.1.total + p.2.total) amt
              (p.1.total + p.2.total - amt))
          else none)
    let found := singles ++ combos
    if found.isEmpty then
      match closestItem items amt with
      | some it => [Cand.closest it.ref amt (it.total - amt)]
      | none => []
    else found

/-- Status string of a comparison row (main.py lines 372-374). -/
def estadoOf (x : ℚ) : String :=
  if |x| < 1 / 100 then "✅ Coincide"
  else if 0 < x then "📈 PDF Mayor"
  else "📉 Hoja de Cálculo Mayor"

/-- One row of the comparison table produced by compare_pdf_spreadsheet
(main.py lines 362-374). -/
structure CompRow where
  matricula : String
  importePDF : ℚ
  importeSheet : ℚ
  diferencia : ℚ
  estado : String
  deriving Repr, DecidableEq

/-- Build one comparison row from a key and the two grouped sums. -/
def mkRow (k : String) (p s : ℚ) : CompRow :=
  { matricula := k, importePDF := p, importeSheet := s, diferencia := p - s
    estado := estadoOf (p - s) }

/-- The per-vehicle detail record of compare_pdf_spreadsheet (main.py lines
388-406): totals, difference, the vehicle's PDF items and its potential
matches. -/
structure VehicleDetails where
  pdfTotal : ℚ
  sheetTotal : ℚ
  difference : ℚ
  pdfItems : List LineItem
  potential_matches : List Cand
  deriving Repr, DecidableEq

/-- The detailed-difference record for one mismatched vehicle (main.py lines
382-479): with no PDF items the record is entirely unexplained and no search
runs; otherwise the totals come from the item sum and the potential-match
search runs on the items. -/
def detailsFor (pdfItems : List LineItem) (k : String) (amt : ℚ) : VehicleDetails :=
  let items := pdfItems.filter (fun it => it.matricula == k)
  if items.isEmpty then
    { pdfTotal := 0, sheetTotal := amt, difference := -amt, pdfItems := [], potential_matches := [] }
  else
    { pdfTotal := (items.map (·.total)).sum
      sheetTotal := amt
      difference := (items.map (·.total)).sum - amt
      pdfItems := items
      potential_matches := potentialMatches items amt }

/-- Lexicographic comparison of character lists by code point, the order
Python uses for strings and pandas for string join keys. -/
def strLeChars : List Char → List Char → Bool
  | [], _ => true
  | _ :: _, [] => false
  | a :: as, b :: bs => if a = b then strLeChars as bs else decide (a < b)

/-- String order used when modelling the sorted key output of pandas groupby
and outer merge. -/
def strLe (a b : String) : Bool :=
  strLeChars a.data b.data

/-- The proposition form of strLe, used as the sorting relation. -/
def StrRel (a b : String) : Prop := strLe a b = true

instance : DecidableRel StrRel := fun a b => instDecidableEqBool (strLe a b) true


instance : IsTotal String StrRel := by
  constructor
  intro a b
  rcases a with ⟨x⟩
  rcases b with ⟨y⟩
  show strLeChars x y = true ∨ strLeChars y x = true
  induction x generalizing y with
  | nil => left; rfl
  | cons c cs ih =>
    cases y with
    | nil => right; rfl
    | cons d ds =>
      by_cases hcd : c = d
      · subst hcd
        rcases ih ds with h | h
        · left; simpa [strLeChars] using h
        · right; simpa [strLeChars] using h
      · rcases lt_trichotomy c d with h | h | h
        · left; simp [strLeChars, hcd, h]
        · exact absurd h hcd
        · right; simp [strLeChars, Ne.symm hcd, h]

instance : IsTrans String StrRel := by
  constructor
  intro a b c h1 h2
  rcases a with ⟨x⟩
  rcases b with ⟨y⟩
  rcases c with ⟨z⟩
  show strLeChars x z = true
  replace h1 : strLeChars x y = true := h1
  replace h2 : strLeChars y z = true := h2
  induction x generalizing y z with
  | nil => rfl
  | cons u us ih =>
    cases y with
    | nil => simp [strLeChars] at h1
    | cons v vs =>
      cases z with
      | nil => simp [strLeChars] at h2
      | cons w ws =>
        by_cases huv : u = v
        · subst huv
          by_cases huw : u = w
          · subst huw
            simp only [strLeChars, if_pos rfl] at h1 h2 ⊢
            exact ih vs ws h1 h2
          · simp only [strLeChars, if_pos rfl] at h1
            simpa [strLeChars, huw] using h2
        · by_cases hvw : v = w
          · subst hvw
            simpa [strLeChars, huv] using h1
          · have h1l : u < v := by simpa [strLeChars, huv] using h1
            have h2l : v < w := by simpa [strLeChars, hvw] using h2
            have huwl : u < w := lt_trans h1l h2l
            simp [strLeChars, ne_of_lt huwl, huwl]

/-- Sum of the line totals of the PDF items grouped under one key, after the
matricula columns have been stripped (main.py lines 354-356); a key with no
items sums to 0, which is also what the fillna(0) after the outer merge
produces. -/
def sumPdf (items : List LineItem) (k : String) : ℚ :=
  ((items.filter (fun it => it.matricula == k)).map (·.total)).sum

/-- Sum of the ledger amounts grouped under one key (main.py lines 359 and
387); a key with no entries sums to 0. -/
def sumLed (led : List (String × ℚ)) (k : String) : ℚ :=
  ((led.filter (fun e => e.1 == k)).map (·.2)).sum

/-- The PDF items with their matricula column stripped of surrounding
whitespace (main.py line 351). -/
def pdfStripped (pdfItems : List LineItem) : List LineItem :=
  pdfItems.map (fun it => { it with matricula := pyStrip it.matricula })

/-- The ledger entries with their matricula keys stripped (main.py line
352). -/
def ledStripped (led : List (String × ℚ)) : List (String × ℚ) :=
  led.map (fun e => (pyStrip e.1, e.2))

/-- The key column of the outer merge (main.py line 362): the union of both
key sets, each listed once and in ascending string order, which is how pandas
orders the keys of a groupby followed by an outer merge. -/
def compKeys (pdfItems : List LineItem) (led : List (String × ℚ)) : List String :=
  List.insertionSort StrRel
    (((pdfStripped pdfItems).map (·.matricula) ++ (ledStripped led).map (·.1)).dedup)

/-- The comparison rows in merge order, before the final sort (main.py lines
362-374). -/
def compRows0 (pdfItems : List LineItem) (led : List (String × ℚ)) : List CompRow :=
  (compKeys pdfItems led).map
    (fun k => mkRow k (sumPdf (pdfStripped pdfItems) k) (sumLed (ledStripped led) k))

/-- Sort relation of the final sort_values call: ascending absolute
difference. -/
def RowRel (a b : CompRow) : Prop := |a.diferencia| ≤ |b.diferencia|

instance : DecidableRel RowRel :=
  fun a b => inferInstanceAs (Decidable (|a.diferencia| ≤ |b.diferencia|))

instance : IsTotal CompRow RowRel :=
  ⟨fun a b => le_total |a.diferencia| |b.diferencia|⟩

instance : IsTrans CompRow RowRel :=
  ⟨fun _ _ _ h1 h2 => le_trans h1 h2⟩

/-- The result quadruple of compare_pdf_spreadsheet (main.py lines 332-491). -/
structure CompareResult where
  rows : List CompRow
  totalPdf : ℚ
  totalDiff : ℚ
  detailed : List (String × VehicleDetails)
  deriving Repr, DecidableEq

/-- Embedding of compare_pdf_spreadsheet (main.py lines 332-491). Both key
columns are stripped; each side is group-summed by key and outer-merged with
missing sides filled with 0; the detailed differences are collected, in merge
order, for the keys whose absolute difference is at least 0.01; finally the
rows are sorted by descending absolute difference. pandas sort_values with
ascending=False computes an ascending argsort and reverses it; the
ascending pass is numpy quicksort, which is insertion sort (stable) only on
frames of fewer than 16 rows and is unstable above that, so the program
fixes no particular tie order in general. The model below uses the reverse
of a stable insertion sort: it agrees with pandas exactly on such small
frames (all concrete inputs in this file), and for larger frames only
properties independent of the tie order — the multiset of rows and the
descending-absolute-difference ordering — are read off this model. The
totals are the sum of the PDF column and its difference with the sum of all
spreadsheet amounts. -/
def compare_pdf_spreadsheet (pdfItems : List LineItem) (led : List (String × ℚ)) :
    CompareResult :=
  let rows0 := compRows0 pdfItems led
  let rows := (List.insertionSort RowRel rows0).reverse
  let detailed :=
    (rows0.filter (fun r => decide (1 / 100 ≤ |r.diferencia|))).map
      (fun r =>
        (r.matricula, detailsFor (pdfStripped pdfItems) r.matricula
          (sumLed (ledStripped led) r.matricula)))
  let totalPdf := (rows.map (·.importePDF)).sum
  let totalSheet := ((ledStripped led).map (·.2)).sum
  { rows := rows, totalPdf := totalPdf, totalDiff := totalPdf - totalSheet
    detailed := detailed }

/-- Modelled from the spec: the Candidate-Match Search as the specification
words it (section 4.7 and claim C1) — search tier by tier in fixed priority
order and return all matches of the first non-empty tier only, so the pair
tier is scanned only when no single item matched, and the closest tier only
when both earlier tiers were empty. Kept for comparison against the search
the code actually performs. -/
def specCandidateSearch (items : List LineItem) (amt : ℚ) : List Cand :=
  if amt = 0 then []
  else
    let singles :=
      (items.filter (fun it => decide (|it.total - amt| < 1 / 100))).map
        (fun it => Cand.exactItem it.ref amt (it.total - amt))
    if !singles.isEmpty then singles
    else
      let combos :=
        (allPairs items).filterMap
          (fun p =>
            if |p.1.total + p.2.total - amt| < 1 / 100 then
              some (Cand.combo p.1.ref p.2.ref (p.1.total + p.2.total) amt
                (p.1.total + p.2.total - amt))
            else none)
      if !combos.isEmpty then combos
      else
        match closestItem items amt with
        | some it => [Cand.closest it.ref amt (it.total - amt)]
        | none => []

/-- Join digit groups with a period, the thousands separator of the locale. -/
def sepJoin : List (List Char) → List Char
  | [] => []
  | [g] => g
  | g :: gs => g ++ '.' :: sepJoin gs

/-- Modelled from the spec: a valid locale-formatted number as claim C3
describes it — an optional leading minus, integer digits possibly grouped by
periods acting as thousands separators, and one comma as the decimal
separator before the fractional digits. -/
def localeRender (neg : Bool) (gs : List (List Char)) (frac : List Char) : String :=
  String.mk ((if neg then ['-'] else []) ++ sepJoin gs ++ ',' :: frac)

/-- The mathematical value denoted by a locale-formatted number: the signed
sum of the value of all integer digits and the scaled value of the
fractional digits. -/
def localeValue (neg : Bool) (gs : List (List Char)) (frac : List Char) : ℚ :=
  (if neg then (-1 : ℚ) else 1) *
    ((natOfDigits (gs.foldr (· ++ ·) []) : ℚ) + (natOfDigits frac : ℚ) / 10 ^ frac.length)

/-- Short constructor for concrete test items. -/
def mkItem (matricula articulo : String) (total : ℚ) : LineItem :=
  { matricula := matricula, fecha := none, articulo := articulo, descripcion := ""
    cantidad := 1, precio := total, descuento := 0, total := total }

/-- Fixture for claim C1: one entity with items 100, 60 and 40 against a
ledger amount of 100, so a single item and a distinct pair both hit the
target exactly. -/
def itemsC1 : List LineItem :=
  [mkItem "AAA" "ART1" 100, mkItem "AAA" "ART2" 60, mkItem "AAA" "ART3" 40]

/-- Fixture for claim C4: a header and a data row whose quantity cell "abc"
is non-empty but not numeric. -/
def tblC4 : List (List String) :=
  [["Artículo", "Descripción", "Cantidad", "Precio", "Descuento", "Total"],
   ["X1", "desc", "abc", "1", "", "2"]]

/-- Fixture for claim C5: a grouping row whose entity cell has a second
colon, followed by one data row. -/
def tblC5 : List (List String) :=
  [["Artículo", "Descripción", "Cantidad", "Precio", "Descuento", "Total"],
   ["ALBARAN 000999", "A:AB:CD"],
   ["X1", "desc", "1", "2", "3", "4"]]

/-- Fixture for claim C6: an anchor row, a sub-header row, one parseable
ledger row, one row with an empty amount, one with an unparseable amount, and
a short terminator row. -/
def dataC6 : List (List String) :=
  [["Quincena 1", "", "TOTAL Q1", "10,5"],
   ["Vehiculo", "Cliente", "Matricula", "Importe"],
   ["v1", "c1", "AAA", "10,5"],
   ["v2", "c2", "BBB", ""],
   ["v3", "c3", "CCC", "x"],
   ["fin"]]

/-- Fixture for claim C7: one entity on both sides and one entity present
only in the ledger. -/
def pdfC7 : List LineItem := [mkItem "AAA" "ART1" 100]

/-- Ledger side of the C7 fixture. -/
def ledC7 : List (String × ℚ) := [("AAA", 100), ("JKL", 300)]

/-- Fixture for claim C9: two entities whose absolute differences tie at 10,
to expose the tie order of the final sort. -/
def pdfC9 : List LineItem := [mkItem "AAA" "ART1" 10]

/-- Ledger side of the C9 fixture. -/
def ledC9 : List (String × ℚ) := [("BBB", 10)]

/-- Fixture for claim C10: a header followed by a non-blank data row of only
two cells. -/
def tblC10 : List (List String) :=
  [["Artículo", "Descripción", "Cantidad", "Precio", "Descuento", "Total"],
   ["X1", "d"]]

/-- Fixture for the claim C2 witness: the single comparison row produced by
an empty PDF side against one ledger entry of 5. -/
def rowC2 : CompRow :=
  { matricula := "A", importePDF := 0, importeSheet := 5, diferencia := -5,
    estado := "📉 Hoja de Cálculo Mayor" }

/-! Helper lemmas. -/

theorem convert_eq_chars (s : String) :
    convert_str_to_float s =
      pyFloatChars ((s.data.filter (fun c => c != '.')).map (fun c => if c = ',' then '.' else c)) :=
  rfl

theorem dropWhile_head_false {α} {p : α → Bool} :
    ∀ {l : List α} {x : α} {xs : List α}, l.dropWhile p = x :: xs → p x = false := by
  intro l
  induction l with
  | nil => intro x xs h; simp at h
  | cons a t ih =>
    intro x xs h
    rw [List.dropWhile_cons] at h
    by_cases ha : p a = true
    · rw [if_pos ha] at h; exact ih h
    · rw [if_neg ha] at h
      cases h
      simpa using ha

theorem pyFloatCore_eq_none {sgn : ℚ} {rest : List Char} {c : Char} (hc : c ∈ rest)
    (h1 : c.isDigit = false) (h2 : c ≠ '.') : pyFloatCore sgn rest = none := by
  unfold pyFloatCore
  have hsplit :
      rest.takeWhile (fun c => c != '.') ++ rest.dropWhile (fun c => c != '.') = rest :=
    List.takeWhile_append_dropWhile _ _
  cases hdw : rest.dropWhile (fun c => c != '.') with
  | nil =>
    have hip : c ∈ rest.takeWhile (fun c => c != '.') := by
      rw [← hsplit, hdw, List.append_nil] at hc
      exact hc
    have hall : (rest.takeWhile (fun c => c != '.')).all Char.isDigit = false := by
      cases hA : (rest.takeWhile (fun c => c != '.')).all Char.isDigit
      · rfl
      · have := List.all_eq_true.mp hA c hip
        rw [h1] at this
        exact absurd this (by simp)
    simp [hall]
  | cons d fp =>
    have hd : d = '.' := by
      have := dropWhile_head_false hdw
      simpa using this
    have hmem : c ∈ rest.takeWhile (fun c => c != '.') ∨ c ∈ d :: fp := by
      rw [← hsplit, hdw] at hc
      exact List.mem_append.mp hc
    have hcfp : c ∈ rest.takeWhile (fun c => c != '.') ++ fp := by
      rcases hmem with h | h
      · exact List.mem_append.mpr (Or.inl h)
      · rcases List.mem_cons.mp h with h | h
        · exact absurd (h.trans hd) h2
        · exact List.mem_append.mpr (Or.inr h)
    have hall : (rest.takeWhile (fun c => c != '.') ++ fp).all Char.isDigit = false := by
      cases hA : (rest.takeWhile (fun c => c != '.') ++ fp).all Char.isDigit
      · rfl
      · have := List.all_eq_true.mp hA c hcfp
        rw [h1] at this
        exact absurd this (by simp)
    simp [hall]

theorem pyFloatChars_eq_none {cs : List Char} {c : Char} (hc : c ∈ cs)
    (h1 : c.isDigit = false) (hdot : c ≠ '.') (hminus : c ≠ '-') (hplus : c ≠ '+') :
    pyFloatChars cs = none := by
  cases cs with
  | nil => simp at hc
  | cons a rest =>
    rcases List.mem_cons.mp hc with rfl | hmem
    · show (if c = '-' then pyFloatCore (-1) rest
        else if c = '+' then pyFloatCore 1 rest else pyFloatCore 1 (c :: rest)) = none
      rw [if_neg hminus, if_neg hplus]
      exact pyFloatCore_eq_none (List.mem_cons_self c rest) h1 hdot
    · show (if a = '-' then pyFloatCore (-1) rest
        else if a = '+' then pyFloatCore 1 rest else pyFloatCore 1 (a :: rest)) = none
      by_cases ha : a = '-'
      · rw [if_pos ha]
        exact pyFloatCore_eq_none hmem h1 hdot
      · rw [if_neg ha]
        by_cases ha2 : a = '+'
        · rw [if_pos ha2]
          exact pyFloatCore_eq_none hmem h1 hdot
        · rw [if_neg ha2]
          exact pyFloatCore_eq_none (List.mem_cons_of_mem a hmem) h1 hdot

/-- Claim C8 counterexample: the Numeric Converter does not return 15.0 on
the percent-suffixed input "15%"; the conversion fails instead, so the claim
that the converter strips the percent sign is false on the code. -/
theorem c8_counterexample : convert_str_to_float "15%" ≠ some 15 := by decide

/-- Claim C8 (amended): convert_str_to_float performs no percent stripping —
any input still containing a percent sign after the period removal and comma
substitution, in particular every percent-suffixed input such as "15%", fails
to convert (Python float() raises ValueError, modelled as none); percent
signs are instead removed by the Line-Item Parser from the discount cell
before conversion ever happens. -/
theorem c8_theorem (s : String) (h : '%' ∈ s.data) : convert_str_to_float s = none := by
  rw [convert_eq_chars]
  apply pyFloatChars_eq_none (c := '%')
  · have hf : '%' ∈ s.data.filter (fun c => c != '.') :=
      List.mem_filter.mpr ⟨h, by decide⟩
    have hm := List.mem_map_of_mem (fun c => if c = ',' then '.' else c) hf
    simpa using hm
  · decide
  · decide
  · decide
  · decide

/-- Claim C8 witness: the amended theorem applied to the concrete input
"15%". -/
theorem c8_witness : convert_str_to_float "15%" = none :=
  c8_theorem "15%" (by decide)

theorem pySplitChar_ne_nil (sep : Char) : ∀ (l : List Char), pySplitChar sep l ≠ [] := by
  intro l
  induction l with
  | nil => simp [pySplitChar]
  | cons c rest ih =>
    unfold pySplitChar
    cases h : pySplitChar sep rest with
    | nil => simp
    | cons g gs =>
      by_cases hc : c = sep
      · simp [hc]
      · simp [hc]

theorem pySplitChar_no_sep {sep : Char} :
    ∀ {l : List Char}, sep ∉ l → pySplitChar sep l = [l] := by
  intro l
  induction l with
  | nil => intro _; rfl
  | cons c rest ih =>
    intro h
    have hc : c ≠ sep := fun hh => h (hh ▸ List.mem_cons_self c rest)
    have hrest : sep ∉ rest := fun hh => h (List.mem_cons_of_mem c hh)
    unfold pySplitChar
    rw [ih hrest]
    simp [hc]

theorem pySplitChar_cons (sep c : Char) (rest : List Char) :
    pySplitChar sep (c :: rest) =
      match pySplitChar sep rest with
      | [] => [[]]
      | g :: gs => if c = sep then [] :: g :: gs else (c :: g) :: gs :=
  rfl

theorem pySplitChar_append {sep : Char} :
    ∀ {a : List Char} (b : List Char), sep ∉ a →
      pySplitChar sep (a ++ sep :: b) = a :: pySplitChar sep b := by
  intro a
  induction a with
  | nil =>
    intro b _
    show pySplitChar sep (sep :: b) = [] :: pySplitChar sep b
    rw [pySplitChar_cons]
    cases h : pySplitChar sep b with
    | nil => exact absurd h (pySplitChar_ne_nil sep b)
    | cons g gs => simp
  | cons c rest ih =>
    intro b h
    have hc : c ≠ sep := fun hh => h (hh ▸ List.mem_cons_self c rest)
    have hrest : sep ∉ rest := fun hh => h (List.mem_cons_of_mem c hh)
    show pySplitChar sep (c :: (rest ++ sep :: b)) = (c :: rest) :: pySplitChar sep b
    rw [pySplitChar_cons, ih b hrest]
    simp [hc]

theorem processRows_grouping_step (line : List String) (rest : List (List String))
    (m : String) (f : Option String) (albaranCell matriculaCell : String)
    (hblank : line.all (fun c => c == "") = false)
    (habono : line.any (fun c => sContains c "ABONO") = false)
    (hA : line.find? (fun c => sStarts "ALBARAN" c) = some albaranCell)
    (hM : line.find? (fun c => sStarts "A:" c) = some matriculaCell) :
    processRows (line :: rest) m f =
      processRows rest (pyStrip ((pySplit ':' matriculaCell).getD 1 ""))
        (some ((pySplit ' ' albaranCell).getLastD "")) := by
  simp only [processRows, hblank, habono, hA, hM, Bool.false_eq_true, if_false]

theorem processRows_carry :
    ∀ (rows : List (List String)) (m : String) (f : Option String) (its : List LineItemRaw),
      (∀ l ∈ rows, l.find? (fun c => sStarts "ALBARAN" c) = none ∨
        l.find? (fun c => sStarts "A:" c) = none) →
      processRows rows m f = some its →
      ∀ it ∈ its, it.matricula = m ∧ it.fecha = f := by
  intro rows
  induction rows with
  | nil =>
    intro m f its _ hp it hit
    simp [processRows] at hp
    subst hp
    simp at hit
  | cons line rest ih =>
    intro m f its hng hp it hit
    have hngr : ∀ l ∈ rest, l.find? (fun c => sStarts "ALBARAN" c) = none ∨
        l.find? (fun c => sStarts "A:" c) = none :=
      fun l hl => hng l (List.mem_cons_of_mem line hl)
    unfold processRows at hp
    by_cases hblank : line.all (fun c => c == "") = true
    · rw [hblank] at hp
      simp at hp
      exact ih m f its hngr hp it hit
    · rw [Bool.not_eq_true] at hblank
      rw [hblank] at hp
      simp only [Bool.false_eq_true, if_false] at hp
      by_cases habono : line.any (fun c => sContains c "ABONO") = true
      · rw [habono] at hp
        simp at hp
        exact ih m f its hngr hp it hit
      · rw [Bool.not_eq_true] at habono
        rw [habono] at hp
        simp only [Bool.false_eq_true, if_false] at hp
        cases hA : line.find? (fun c => sStarts "ALBARAN" c) with
        | some ac =>
          cases hM : line.find? (fun c => sStarts "A:" c) with
          | some mc =>
            rcases hng line (List.mem_cons_self line rest) with h | h
            · rw [hA] at h; exact absurd h (by simp)
            · rw [hM] at h; exact absurd h (by simp)
          | none =>
            rw [hA, hM] at hp
            by_cases hlen : line.length < 6
            · rw [if_pos hlen] at hp
              simp at hp
            · rw [if_neg hlen] at hp
              rcases Option.map_eq_some'.mp hp with ⟨its', hits', heq⟩
              subst heq
              rcases List.mem_cons.mp hit with rfl | hmem
              · exact ⟨rfl, rfl⟩
              · exact ih m f its' hngr hits' it hmem
        | none =>
          rw [hA] at hp
          by_cases hlen : line.length < 6
          · rw [if_pos hlen] at hp
            simp at hp
          · rw [if_neg hlen] at hp
            rcases Option.map_eq_some'.mp hp with ⟨its', hits', heq⟩
            subst heq
            rcases List.mem_cons.mp hit with rfl | hmem
            · exact ⟨rfl, rfl⟩
            · exact ih m f its' hngr hits' it hmem

theorem splitColon_two (k1 k2 : List Char) (h1 : ':' ∉ k1) :
    (pySplit ':' (String.mk ('A' :: ':' :: (k1 ++ ':' :: k2)))).getD 1 "" = String.mk k1 := by
  show ((pySplitChar ':' ('A' :: ':' :: (k1 ++ ':' :: k2))).map String.mk).getD 1 "" = String.mk k1
  have hA : (':' : Char) ∉ ['A'] := by decide
  have h := pySplitChar_append (a := ['A']) (k1 ++ ':' :: k2) hA
  rw [show ('A' :: ':' :: (k1 ++ ':' :: k2)) = ['A'] ++ ':' :: (k1 ++ ':' :: k2) from rfl, h,
    pySplitChar_append k2 h1]
  simp

theorem splitColon_one (k : List Char) (h : ':' ∉ k) :
    (pySplit ':' (String.mk ('A' :: ':' :: k))).getD 1 "" = String.mk k := by
  show ((pySplitChar ':' ('A' :: ':' :: k)).map String.mk).getD 1 "" = String.mk k
  have hA : (':' : Char) ∉ ['A'] := by decide
  have happ := pySplitChar_append (a := ['A']) k hA
  rw [show ('A' :: ':' :: k) = ['A'] ++ ':' :: k from rfl, happ, pySplitChar_no_sep h]
  simp

/-- Claim C5 (amended): a grouping-context row (not blank, no credit-note
marker, one cell starting with ALBARAN and one starting with A:) emits no
item and updates the running context: the reference date becomes the token
after the last space of the reference-marker cell and the entity key becomes
the SECOND colon-separated field of the entity-marker cell, trimmed — i.e.
the text between the first and second colon when the remainder itself
contains a colon (not the entire remainder after the first colon, which is
what the claim asserted), and the whole remainder only when it contains no
further colon; every later data row, as long as no further grouping row
intervenes, carries these running values. -/
theorem c5_theorem :
    (∀ (line : List String) (rest : List (List String)) (m : String) (f : Option String)
        (albaranCell matriculaCell : String),
        line.all (fun c => c == "") = false →
        line.any (fun c => sContains c "ABONO") = false →
        line.find? (fun c => sStarts "ALBARAN" c) = some albaranCell →
        line.find? (fun c => sStarts "A:" c) = some matriculaCell →
        processRows (line :: rest) m f =
          processRows rest (pyStrip ((pySplit ':' matriculaCell).getD 1 ""))
            (some ((pySplit ' ' albaranCell).getLastD ""))) ∧
    (∀ k1 k2 : List Char, ':' ∉ k1 →
        (pySplit ':' (String.mk ('A' :: ':' :: (k1 ++ ':' :: k2)))).getD 1 "" = String.mk k1) ∧
    (∀ k : List Char, ':' ∉ k →
        (pySplit ':' (String.mk ('A' :: ':' :: k))).getD 1 "" = String.mk k) ∧
    (∀ (rows : List (List String)) (m : String) (f : Option String) (its : List LineItemRaw),
        (∀ l ∈ rows, l.find? (fun c => sStarts "ALBARAN" c) = none ∨
          l.find? (fun c => sStarts "A:" c) = none) →
        processRows rows m f = some its →
        ∀ it ∈ its, it.matricula = m ∧ it.fecha = f) :=
  ⟨processRows_grouping_step, splitColon_two, splitColon_one, processRows_carry⟩

/-- Claim C5 counterexample: on the grouping row ("ALBARAN 000999",
"A:AB:CD") the parser records entity key "AB" — the field between the first
and second colon — not the full substring "AB:CD" after the first colon as
the claim states. -/
theorem c5_counterexample :
    format_main_table tblC5 =
      some [{ matricula := "AB", fecha := some "000999", articulo := "X1",
              descripcion := "desc", cantidad := "1", precio := "2", descuento := "3",
              total := "4" }] ∧
    ("AB" : String) ≠ "AB:CD" :=
  ⟨by decide, by decide⟩

/-- Claim C5 witness: the amended grouping-step equation applied to the
concrete grouping row of the counterexample table. -/
theorem c5_witness :
    processRows [["ALBARAN 000999", "A:AB:CD"], ["X1", "desc", "1", "2", "3", "4"]] "" none =
      processRows [["X1", "desc", "1", "2", "3", "4"]]
        (pyStrip ((pySplit ':' "A:AB:CD").getD 1 ""))
        (some ((pySplit ' ' "ALBARAN 000999").getLastD "")) :=
  c5_theorem.1 ["ALBARAN 000999", "A:AB:CD"] [["X1", "desc", "1", "2", "3", "4"]] "" none
    "ALBARAN 000999" "A:AB:CD" (by decide) (by decide) (by decide) (by decide)

theorem processRows_short_row_none (line : List String)
    (hblank : line.all (fun c => c == "") = false)
    (habono : line.any (fun c => sContains c "ABONO") = false)
    (hng : line.find? (fun c => sStarts "ALBARAN" c) = none ∨
      line.find? (fun c => sStarts "A:" c) = none)
    (hlen : line.length < 6) :
    ∀ (pre rest : List (List String)) (m : String) (f : Option String),
      processRows (pre ++ line :: rest) m f = none := by
  intro pre
  induction pre with
  | nil =>
    intro rest m f
    show processRows (line :: rest) m f = none
    unfold processRows
    rw [hblank, habono]
    simp only [Bool.false_eq_true, if_false]
    cases hA : line.find? (fun c => sStarts "ALBARAN" c) with
    | some ac =>
      cases hM : line.find? (fun c => sStarts "A:" c) with
      | some mc =>
        rcases hng with h | h
        · rw [hA] at h; exact absurd h (by simp)
        · rw [hM] at h; exact absurd h (by simp)
      | none => simp [if_pos hlen]
    | none => simp [if_pos hlen]
  | cons p pre' ih =>
    intro rest m f
    show processRows (p :: (pre' ++ line :: rest)) m f = none
    unfold processRows
    by_cases hb : p.all (fun c => c == "") = true
    · rw [hb]; simpa using ih rest m f
    · rw [Bool.not_eq_true] at hb
      rw [hb]
      simp only [Bool.false_eq_true, if_false]
      by_cases ha : p.any (fun c => sContains c "ABONO") = true
      · rw [ha]; simpa using ih rest m f
      · rw [Bool.not_eq_true] at ha
        rw [ha]
        simp only [Bool.false_eq_true, if_false]
        cases hA : p.find? (fun c => sStarts "ALBARAN" c) with
        | some ac =>
          cases hM : p.find? (fun c => sStarts "A:" c) with
          | some mc => simpa using ih rest _ _
          | none =>
            by_cases hl : p.length < 6
            · simp [if_pos hl]
            · simp only [if_neg hl]
              rw [ih rest m f]
              rfl
        | none =>
          by_cases hl : p.length < 6
          · simp [if_pos hl]
          · simp only [if_neg hl]
            rw [ih rest m f]
            rfl

/-- Claim C10: when the rows after the header contain a row that is not
fully blank, mentions no credit-note marker, is not a grouping-context row
(it lacks an ALBARAN-cell or an A:-cell), and has fewer than 6 cells, the
parse of the whole table fails (the unconditional reads of cells 0-5 raise
IndexError, modelled as none) instead of skipping the row or emitting a
partial item. -/
theorem c10_theorem (table : List (List String)) (i : ℕ)
    (pre : List (List String)) (line : List String) (rest : List (List String))
    (hh : table.findIdx? (fun l => l.contains "Artículo") = some i)
    (hsplit : table.drop (i + 1) = pre ++ line :: rest)
    (hblank : line.all (fun c => c == "") = false)
    (habono : line.any (fun c => sContains c "ABONO") = false)
    (hng : line.find? (fun c => sStarts "ALBARAN" c) = none ∨
      line.find? (fun c => sStarts "A:" c) = none)
    (hlen : line.length < 6) :
    format_main_table table = none := by
  unfold format_main_table
  rw [hh]
  show processRows (table.drop (i + 1)) "" none = none
  rw [hsplit]
  exact processRows_short_row_none line hblank habono hng hlen pre rest "" none

/-- Claim C10 witness: the theorem applied to a concrete table with a header
row followed by a two-cell data row. -/
theorem c10_witness : format_main_table tblC10 = none :=
  c10_theorem tblC10 0 [] ["X1", "d"] [] (by decide) (by decide) (by decide) (by decide)
    (Or.inl (by decide)) (by decide)

theorem processRows_data_step (line : List String) (rest : List (List String))
    (m : String) (f : Option String)
    (hblank : line.all (fun c => c == "") = false)
    (habono : line.any (fun c => sContains c "ABONO") = false)
    (hng : line.find? (fun c => sStarts "ALBARAN" c) = none ∨
      line.find? (fun c => sStarts "A:" c) = none)
    (hlen : ¬line.length < 6) :
    processRows (line :: rest) m f =
      (processRows rest m f).map (dataItem m f line :: ·) := by
  conv_lhs => rw [processRows]
  rw [hblank, habono]
  simp only [Bool.false_eq_true, if_false]
  cases hA : line.find? (fun c => sStarts "ALBARAN" c) with
  | some ac =>
    cases hM : line.find? (fun c => sStarts "A:" c) with
    | some mc =>
      rcases hng with h | h
      · rw [hA] at h; exact absurd h (by simp)
      · rw [hM] at h; exact absurd h (by simp)
    | none =>
      show (if line.length < 6 then none
          else (processRows rest m f).map (dataItem m f line :: ·)) =
        (processRows rest m f).map (dataItem m f line :: ·)
      rw [if_neg hlen]
  | none =>
    show (if line.length < 6 then none
        else (processRows rest m f).map (dataItem m f line :: ·)) =
      (processRows rest m f).map (dataItem m f line :: ·)
    rw [if_neg hlen]

theorem toNumeric_fails (it : LineItemRaw)
    (h : pyFloat it.cantidad = none ∨ pyFloat it.precio = none ∨
      pyFloat it.descuento = none ∨ pyFloat it.total = none) :
    toNumeric it = none := by
  unfold toNumeric
  rcases h with h | h | h | h
  · simp [h]
  · cases hc : pyFloat it.cantidad <;> simp [hc, h]
  · cases hc : pyFloat it.cantidad <;> cases hp : pyFloat it.precio <;> simp [hc, hp, h]
  · cases hc : pyFloat it.cantidad <;> cases hp : pyFloat it.precio <;>
      cases hd : pyFloat it.descuento <;> simp [hc, hp, hd, h]

theorem toNumeric_zeros (it : LineItemRaw) (h2 : it.cantidad = "0") (h3 : it.precio = "0")
    (h4 : it.descuento = "0") (h5 : it.total = "0") :
    toNumeric it =
      some { matricula := it.matricula, fecha := it.fecha, articulo := it.articulo,
             descripcion := it.descripcion, cantidad := 0, precio := 0, descuento := 0,
             total := 0 } := by
  have h0 : pyFloat "0" = some 0 := by
    simp +decide [pyFloat, pyFloatChars, pyFloatCore, natOfDigits,
      List.takeWhile_cons, List.dropWhile_cons]
  unfold toNumeric
  rw [h2, h3, h4, h5, h0]
  rfl

/-- Claim C4 counterexample: on a data row whose quantity cell is the
non-empty, non-numeric string "abc", the string-stage parse keeps "abc"
rather than coercing it to 0, and the numeric conversion stage of the
document read fails for the whole table — the unparseable cell IS fatal. -/
theorem c4_counterexample :
    format_main_table tblC4 =
      some [{ matricula := "", fecha := none, articulo := "X1", descripcion := "desc",
              cantidad := "abc", precio := "1", descuento := "0", total := "2" }] ∧
    read_pdf_items tblC4 = none :=
  ⟨by decide, by decide⟩

/-- Claim C4 (amended): on a document data row an EMPTY numeric cell for
quantity, unit price, discount or total defaults to the string "0" before
conversion, and a row whose four numeric cells are all empty converts
without failure to zeros; but a non-empty numeric cell that remains
unparseable after normalisation is not coerced to 0 — it makes the numeric
conversion of the document read fail (pandas astype(float) raises), so an
unparseable cell is fatal to the parse. -/
theorem c4_theorem :
    (∀ (line : List String) (rest : List (List String)) (m : String) (f : Option String),
        line.all (fun c => c == "") = false →
        line.any (fun c => sContains c "ABONO") = false →
        (line.find? (fun c => sStarts "ALBARAN" c) = none ∨
          line.find? (fun c => sStarts "A:" c) = none) →
        ¬line.length < 6 →
        processRows (line :: rest) m f =
          (processRows rest m f).map (dataItem m f line :: ·) ∧
        (line.getD 2 "" = "" → (dataItem m f line).cantidad = "0") ∧
        (line.getD 3 "" = "" → (dataItem m f line).precio = "0") ∧
        (line.getD 4 "" = "" → (dataItem m f line).descuento = "0") ∧
        (line.getD 5 "" = "" → (dataItem m f line).total = "0")) ∧
    (∀ it : LineItemRaw, it.cantidad = "0" → it.precio = "0" → it.descuento = "0" →
        it.total = "0" →
        toNumeric it =
          some { matricula := it.matricula, fecha := it.fecha, articulo := it.articulo,
                 descripcion := it.descripcion, cantidad := 0, precio := 0, descuento := 0,
                 total := 0 }) ∧
    (∀ it : LineItemRaw,
        pyFloat it.cantidad = none ∨ pyFloat it.precio = none ∨
          pyFloat it.descuento = none ∨ pyFloat it.total = none →
        toNumeric it = none) := by
  refine ⟨?_, toNumeric_zeros, toNumeric_fails⟩
  intro line rest m f hblank habono hng hlen
  refine ⟨processRows_data_step line rest m f hblank habono hng hlen, ?_, ?_, ?_, ?_⟩
  · intro h
    show (if line.getD 2 "" = "" then "0" else pyReplace ',' '.' (line.getD 2 "")) = "0"
    rw [if_pos h]
  · intro h
    show (if line.getD 3 "" = "" then "0" else pyReplace ',' '.' (line.getD 3 "")) = "0"
    rw [if_pos h]
  · intro h
    show (if line.getD 4 "" = "" then "0"
        else pyReplace ',' '.' (pyRemove '%' (line.getD 4 ""))) = "0"
    rw [if_pos h]
  · intro h
    show (if line.getD 5 "" = "" then "0" else pyReplace ',' '.' (line.getD 5 "")) = "0"
    rw [if_pos h]

/-- Claim C4 witness: the amended theorem applied to a concrete data row
with all four numeric cells empty, whose parsed item converts to zeros. -/
theorem c4_witness :
    processRows [["X1", "d", "", "", "", ""]] "" none =
      (processRows [] "" none).map (dataItem "" none ["X1", "d", "", "", "", ""] :: ·) ∧
    (dataItem "" none ["X1", "d", "", "", "", ""]).cantidad = "0" :=
  ⟨((c4_theorem.1 ["X1", "d", "", "", "", ""] [] "" none (by decide) (by decide)
      (Or.inl (by decide)) (by decide)).1),
   ((c4_theorem.1 ["X1", "d", "", "", "", ""] [] "" none (by decide) (by decide)
      (Or.inl (by decide)) (by decide)).2.1 (by decide))⟩

theorem mem_rows_iff (pdfItems : List LineItem) (led : List (String × ℚ)) (r : CompRow) :
    r ∈ (compare_pdf_spreadsheet pdfItems led).rows ↔ r ∈ compRows0 pdfItems led := by
  show r ∈ (List.insertionSort RowRel (compRows0 pdfItems led)).reverse ↔ _
  rw [List.mem_reverse]
  exact (List.perm_insertionSort RowRel (compRows0 pdfItems led)).mem_iff

theorem mem_compRows0 {pdfItems : List LineItem} {led : List (String × ℚ)} {r : CompRow}
    (h : r ∈ compRows0 pdfItems led) :
    ∃ k ∈ compKeys pdfItems led,
      r = mkRow k (sumPdf (pdfStripped pdfItems) k) (sumLed (ledStripped led) k) := by
  rcases List.mem_map.mp h with ⟨k, hk, heq⟩
  exact ⟨k, hk, heq.symm⟩

theorem estadoOf_spec (x : ℚ) :
    (estadoOf x = "✅ Coincide" ↔ |x| < 1 / 100) ∧
    (estadoOf x = "📈 PDF Mayor" ↔ 1 / 100 ≤ |x| ∧ 0 < x) ∧
    (estadoOf x = "📉 Hoja de Cálculo Mayor" ↔ 1 / 100 ≤ |x| ∧ x ≤ 0) := by
  unfold estadoOf
  by_cases habs : |x| < 1 / 100
  · rw [if_pos habs]
    exact ⟨⟨fun _ => habs, fun _ => rfl⟩,
      ⟨fun hh => absurd hh (by decide), fun hc => absurd habs (not_lt.mpr hc.1)⟩,
      ⟨fun hh => absurd hh (by decide), fun hc => absurd habs (not_lt.mpr hc.1)⟩⟩
  · rw [if_neg habs]
    have hge : 1 / 100 ≤ |x| := not_lt.mp habs
    by_cases hpos : 0 < x
    · rw [if_pos hpos]
      exact ⟨⟨fun hh => absurd hh (by decide), fun hlt => absurd hlt habs⟩,
        ⟨fun _ => ⟨hge, hpos⟩, fun _ => rfl⟩,
        ⟨fun hh => absurd hh (by decide), fun hc => absurd hpos (not_lt.mpr hc.2)⟩⟩
    · rw [if_neg hpos]
      exact ⟨⟨fun hh => absurd hh (by decide), fun hlt => absurd hlt habs⟩,
        ⟨fun hh => absurd hh (by decide), fun hc => absurd hc.2 hpos⟩,
        ⟨fun _ => ⟨hge, not_lt.mp hpos⟩, fun _ => rfl⟩⟩

/-- Claim C2: every comparison row records difference = pdf sum minus ledger
sum; its status is the match marker exactly when the absolute difference is
strictly below 0.01 (so a difference of exactly 0.01 is not a match), the
PDF-greater marker exactly when it is not a match and the difference is
positive, and the ledger-greater marker exactly when it is not a match and
the difference is not positive. -/
theorem c2_theorem (pdfItems : List LineItem) (led : List (String × ℚ)) (r : CompRow)
    (h : r ∈ (compare_pdf_spreadsheet pdfItems led).rows) :
    r.diferencia = r.importePDF - r.importeSheet ∧
    (r.estado = "✅ Coincide" ↔ |r.diferencia| < 1 / 100) ∧
    (r.estado = "📈 PDF Mayor" ↔ 1 / 100 ≤ |r.diferencia| ∧ 0 < r.diferencia) ∧
    (r.estado = "📉 Hoja de Cálculo Mayor" ↔ 1 / 100 ≤ |r.diferencia| ∧ r.diferencia ≤ 0) := by
  rcases mem_compRows0 ((mem_rows_iff pdfItems led r).mp h) with ⟨k, -, heq⟩
  subst heq
  exact ⟨rfl, (estadoOf_spec _).1, (estadoOf_spec _).2.1, (estadoOf_spec _).2.2⟩

/-- Claim C2 witness: the theorem applied to the concrete comparison of an
empty PDF side against the single ledger entry ("A", 5). -/
theorem c2_witness :
    rowC2.diferencia = rowC2.importePDF - rowC2.importeSheet ∧
    (rowC2.estado = "✅ Coincide" ↔ |rowC2.diferencia| < 1 / 100) ∧
    (rowC2.estado = "📈 PDF Mayor" ↔ 1 / 100 ≤ |rowC2.diferencia| ∧ 0 < rowC2.diferencia) ∧
    (rowC2.estado = "📉 Hoja de Cálculo Mayor" ↔
      1 / 100 ≤ |rowC2.diferencia| ∧ rowC2.diferencia ≤ 0) :=
  c2_theorem [] [("A", 5)] rowC2 (by
    have hrows : (compare_pdf_spreadsheet [] [("A", 5)]).rows = [rowC2] := by
      simp +decide [compare_pdf_spreadsheet, compRows0, compKeys, pdfStripped, ledStripped,
        pyStrip, stripChars, sumPdf, sumLed, mkRow, estadoOf, rowC2, List.insertionSort,
        List.orderedInsert, List.dedup, List.dedup_cons_of_not_mem]
      norm_num
    rw [hrows]
    exact List.mem_singleton_self rowC2)

theorem extractLedgerRows_eq (matriculaCol importeCol : ℕ) :
    ∀ rows : List (List String),
      extractLedgerRows matriculaCol importeCol rows =
        (rows.takeWhile (fun row => decide (max matriculaCol importeCol < row.length))).filterMap
          (ledgerRowEntry matriculaCol importeCol) := by
  intro rows
  induction rows with
  | nil => rfl
  | cons row rest ih =>
    by_cases hl : row.length ≤ max matriculaCol importeCol
    · have hdec : decide (max matriculaCol importeCol < row.length) = false :=
        decide_eq_false (Nat.not_lt.mpr hl)
      unfold extractLedgerRows
      rw [if_pos hl, List.takeWhile_cons, hdec]
      rfl
    · have hlt : max matriculaCol importeCol < row.length := Nat.not_le.mp hl
      have hdec : decide (max matriculaCol importeCol < row.length) = true := decide_eq_true hlt
      unfold extractLedgerRows
      rw [if_neg hl, List.takeWhile_cons, hdec]
      simp only [if_true]
      rw [List.filterMap_cons]
      cases hE : ledgerRowEntry matriculaCol importeCol row with
      | none => exact ih
      | some e => rw [ih]

/-- Claim C6: once the fortnight anchor is found at grid position (i, j),
the Ledger Section Parser walks the rows starting two below the anchor,
stops at the first row too short to contain both the entity-key column
(anchor offset +2) and the amount column (anchor offset +3), and produces
exactly one entry per remaining row whose amount cell yields a value —
a row whose stripped amount cell is empty, or whose amount fails numeric
conversion, produces no entry (it is skipped, not filled with 0) and raises
no error (the extraction is total). -/
theorem c6_theorem :
    (∀ (data : List (List String)) (fortnight : String) (i j : ℕ),
        findAnchor data ("Quincena " ++ fortnight) = some (i, j) →
        parse_spreadsheet_data data fortnight =
          ((data.drop (i + 2)).takeWhile
              (fun row => decide (max (j + 2) (j + 3) < row.length))).filterMap
            (ledgerRowEntry (j + 2) (j + 3))) ∧
    (∀ (matriculaCol importeCol : ℕ) (row : List String),
        pyStrip (row.getD importeCol "") = "" →
        ledgerRowEntry matriculaCol importeCol row = none) ∧
    (∀ (matriculaCol importeCol : ℕ) (row : List String),
        parseImporte (pyStrip (row.getD importeCol "")) = none →
        ledgerRowEntry matriculaCol importeCol row = none) := by
  refine ⟨?_, ?_, ?_⟩
  · intro data fortnight i j h
    unfold parse_spreadsheet_data
    rw [h]
    exact extractLedgerRows_eq (j + 2) (j + 3) (data.drop (i + 2))
  · intro matriculaCol importeCol row h
    unfold ledgerRowEntry
    by_cases hlt : importeCol < row.length
    · rw [if_pos hlt, h]
      rfl
    · rw [if_neg hlt]
      rfl
  · intro matriculaCol importeCol row h
    unfold ledgerRowEntry
    by_cases hlt : importeCol < row.length
    · rw [if_pos hlt]
      by_cases he : pyStrip (row.getD importeCol "") = ""
      · rw [if_pos he]
      · rw [if_neg he, h]
        rfl
    · rw [if_neg hlt]
      rfl

/-- Claim C6 witness: the characterisation applied to a concrete ledger grid
whose data region has one parseable row, one empty-amount row, one
unparseable-amount row, and a short terminator row. -/
theorem c6_witness :
    parse_spreadsheet_data dataC6 "1" =
      ((dataC6.drop 2).takeWhile (fun row => decide (max 2 3 < row.length))).filterMap
        (ledgerRowEntry 2 3) :=
  c6_theorem.1 dataC6 "1" 0 0 (by decide)

theorem isEmpty_false_of_mem {α} {a : α} {l : List α} (h : a ∈ l) : l.isEmpty = false := by
  cases l with
  | nil => simp at h
  | cons b t => rfl

theorem potentialMatches_eq (items : List LineItem) (amt : ℚ) (hamt : amt ≠ 0) :
    potentialMatches items amt =
      (if ((items.filter (fun it => decide (|it.total - amt| < 1 / 100))).map
            (fun it => Cand.exactItem it.ref amt (it.total - amt)) ++
          (allPairs items).filterMap
            (fun p =>
              if |p.1.total + p.2.total - amt| < 1 / 100 then
                some (Cand.combo p.1.ref p.2.ref (p.1.total + p.2.total) amt
                  (p.1.total + p.2.total - amt))
              else none)).isEmpty then
        match closestItem items amt with
        | some it => [Cand.closest it.ref amt (it.total - amt)]
        | none => []
      else
        (items.filter (fun it => decide (|it.total - amt| < 1 / 100))).map
            (fun it => Cand.exactItem it.ref amt (it.total - amt)) ++
          (allPairs items).filterMap
            (fun p =>
              if |p.1.total + p.2.total - amt| < 1 / 100 then
                some (Cand.combo p.1.ref p.2.ref (p.1.total + p.2.total) amt
                  (p.1.total + p.2.total - amt))
              else none)) := by
  unfold potentialMatches
  rw [if_neg hamt]

theorem potentialMatches_single_mem (items : List LineItem) (amt : ℚ) (it : LineItem)
    (hamt : amt ≠ 0) (hmem : it ∈ items) (hclose : |it.total - amt| < 1 / 100) :
    Cand.exactItem it.ref amt (it.total - amt) ∈ potentialMatches items amt := by
  rw [potentialMatches_eq items amt hamt]
  have hs : Cand.exactItem it.ref amt (it.total - amt) ∈
      (items.filter (fun it => decide (|it.total - amt| < 1 / 100))).map
        (fun it => Cand.exactItem it.ref amt (it.total - amt)) :=
    List.mem_map_of_mem _ (List.mem_filter.mpr ⟨hmem, decide_eq_true hclose⟩)
  have hfound := List.mem_append_left
    ((allPairs items).filterMap
      (fun p =>
        if |p.1.total + p.2.total - amt| < 1 / 100 then
          some (Cand.combo p.1.ref p.2.ref (p.1.total + p.2.total) amt
            (p.1.total + p.2.total - amt))
        else none)) hs
  rw [isEmpty_false_of_mem hfound]
  simp only [Bool.false_eq_true, if_false]
  exact hfound

theorem potentialMatches_pair_mem (items : List LineItem) (amt : ℚ) (a b : LineItem)
    (hamt : amt ≠ 0) (hp : (a, b) ∈ allPairs items)
    (hclose : |a.total + b.total - amt| < 1 / 100) :
    Cand.combo a.ref b.ref (a.total + b.total) amt (a.total + b.total - amt) ∈
      potentialMatches items amt := by
  rw [potentialMatches_eq items amt hamt]
  have hc : Cand.combo a.ref b.ref (a.total + b.total) amt (a.total + b.total - amt) ∈
      (allPairs items).filterMap
        (fun p =>
          if |p.1.total + p.2.total - amt| < 1 / 100 then
            some (Cand.combo p.1.ref p.2.ref (p.1.total + p.2.total) amt
              (p.1.total + p.2.total - amt))
          else none) :=
    List.mem_filterMap.mpr ⟨(a, b), hp, by simp only [if_pos hclose]⟩
  have hfound := List.mem_append_right
    ((items.filter (fun it => decide (|it.total - amt| < 1 / 100))).map
      (fun it => Cand.exactItem it.ref amt (it.total - amt))) hc
  rw [isEmpty_false_of_mem hfound]
  simp only [Bool.false_eq_true, if_false]
  exact hfound

theorem potentialMatches_closest (items : List LineItem) (amt : ℚ) (it : LineItem)
    (hamt : amt ≠ 0)
    (h1 : ∀ x ∈ items, ¬(|x.total - amt| < 1 / 100))
    (h2 : ∀ a b : LineItem, (a, b) ∈ allPairs items → ¬(|a.total + b.total - amt| < 1 / 100))
    (hcl : closestItem items amt = some it) :
    potentialMatches items amt = [Cand.closest it.ref amt (it.total - amt)] := by
  rw [potentialMatches_eq items amt hamt]
  have hS : items.filter (fun it => decide (|it.total - amt| < 1 / 100)) = [] :=
    List.filter_eq_nil_iff.mpr (fun x hx => by simpa using h1 x hx)
  have hC : (allPairs items).filterMap
      (fun p =>
        if |p.1.total + p.2.total - amt| < 1 / 100 then
          some (Cand.combo p.1.ref p.2.ref (p.1.total + p.2.total) amt
            (p.1.total + p.2.total - amt))
        else none) = [] := by
    refine List.filterMap_eq_nil_iff.mpr (fun p hp => ?_)
    rcases p with ⟨a, b⟩
    simp only [if_neg (h2 a b hp)]
  rw [hS, hC]
  simp [hcl]

/-- Claim C1 (amended): for a nonzero ledger amount the Candidate-Match
Search does NOT stop after the first non-empty tier — the single-item scan
and the pair scan are both always performed and their matches are all
returned together (every single item within 0.01 of the amount contributes
an exact match, and every distinct pair summing to within 0.01 contributes a
pair match, even when single matches exist); only the Closest tier is
conditional: it contributes exactly the closest item, and only when both the
single and the pair scans found nothing. -/
theorem c1_theorem (items : List LineItem) (amt : ℚ) (hamt : amt ≠ 0) :
    (∀ it ∈ items, |it.total - amt| < 1 / 100 →
      Cand.exactItem it.ref amt (it.total - amt) ∈ potentialMatches items amt) ∧
    (∀ a b : LineItem, (a, b) ∈ allPairs items → |a.total + b.total - amt| < 1 / 100 →
      Cand.combo a.ref b.ref (a.total + b.total) amt (a.total + b.total - amt) ∈
        potentialMatches items amt) ∧
    (∀ it : LineItem, (∀ x ∈ items, ¬(|x.total - amt| < 1 / 100)) →
      (∀ a b : LineItem, (a, b) ∈ allPairs items →
        ¬(|a.total + b.total - amt| < 1 / 100)) →
      closestItem items amt = some it →
      potentialMatches items amt = [Cand.closest it.ref amt (it.total - amt)]) :=
  ⟨fun it hm hc => potentialMatches_single_mem items amt it hamt hm hc,
   fun a b hp hc => potentialMatches_pair_mem items amt a b hamt hp hc,
   fun it h1 h2 hcl => potentialMatches_closest items amt it hamt h1 h2 hcl⟩

/-- Claim C1 counterexample: with items of 100, 60 and 40 against the ledger
amount 100, the single item 100 matches exactly, yet the pair scan still
runs and also reports the pair 60 + 40 — the search the code performs
differs from the first-non-empty-tier search described by the claim, which
would return only the single match. -/
theorem c1_counterexample :
    potentialMatches itemsC1 100 =
      [Cand.exactItem { articulo := "ART1", descripcion := "", total := 100 } 100 0,
       Cand.combo { articulo := "ART2", descripcion := "", total := 60 }
         { articulo := "ART3", descripcion := "", total := 40 } 100 100 0] ∧
    specCandidateSearch itemsC1 100 =
      [Cand.exactItem { articulo := "ART1", descripcion := "", total := 100 } 100 0] ∧
    potentialMatches itemsC1 100 ≠ specCandidateSearch itemsC1 100 := by
  have h1 : potentialMatches itemsC1 100 =
      [Cand.exactItem { articulo := "ART1", descripcion := "", total := 100 } 100 0,
       Cand.combo { articulo := "ART2", descripcion := "", total := 60 }
         { articulo := "ART3", descripcion := "", total := 40 } 100 100 0] := by
    norm_num [potentialMatches, itemsC1, mkItem, allPairs, LineItem.ref, closestItem,
      List.filter_cons, List.filterMap_cons]
  have h2 : specCandidateSearch itemsC1 100 =
      [Cand.exactItem { articulo := "ART1", descripcion := "", total := 100 } 100 0] := by
    norm_num [specCandidateSearch, itemsC1, mkItem, allPairs, LineItem.ref, closestItem,
      List.filter_cons, List.filterMap_cons]
  refine ⟨h1, h2, ?_⟩
  rw [h1, h2]
  intro heq
  exact absurd (congrArg List.length heq) (by decide)

/-- Claim C1 witness: the amended theorem applied to the counterexample
items — the pair 60 + 40 is reported even though the single item 100 already
matches. -/
theorem c1_witness :
    Cand.combo (mkItem "AAA" "ART2" 60).ref (mkItem "AAA" "ART3" 40).ref
      ((mkItem "AAA" "ART2" 60).total + (mkItem "AAA" "ART3" 40).total) 100
      ((mkItem "AAA" "ART2" 60).total + (mkItem "AAA" "ART3" 40).total - 100) ∈
      potentialMatches itemsC1 100 :=
  (c1_theorem itemsC1 100 (by norm_num)).2.1 (mkItem "AAA" "ART2" 60) (mkItem "AAA" "ART3" 40)
    (by simp [allPairs, itemsC1]) (by norm_num [mkItem])

theorem mem_compKeys_iff (pdfItems : List LineItem) (led : List (String × ℚ)) (k : String) :
    k ∈ compKeys pdfItems led ↔
      k ∈ (pdfStripped pdfItems).map (·.matricula) ++ (ledStripped led).map (·.1) := by
  unfold compKeys
  rw [(List.perm_insertionSort StrRel _).mem_iff, List.mem_dedup]

theorem sumPdf_eq_zero (items : List LineItem) (k : String)
    (h : ∀ it ∈ items, it.matricula ≠ k) : sumPdf items k = 0 := by
  unfold sumPdf
  rw [List.filter_eq_nil_iff.mpr (fun it hit => by simpa using h it hit)]
  rfl

/-- Claim C7: an entity key that appears (after stripping) among the ledger
keys but not among the PDF item keys yields a comparison row with pdf sum 0
and difference equal to minus its ledger sum; any detailed-difference entry
recorded for it carries pdf total 0, the full ledger amount as unexplained
difference, no PDF items and an EMPTY potential-matches list (the candidate
search never runs for it); and when the absolute difference reaches the 0.01
threshold such a detailed entry is indeed present. -/
theorem c7_theorem (pdfItems : List LineItem) (led : List (String × ℚ)) (k : String)
    (hled : k ∈ (ledStripped led).map (·.1))
    (hpdf : k ∉ (pdfStripped pdfItems).map (·.matricula)) :
    (∃ r ∈ (compare_pdf_spreadsheet pdfItems led).rows, r.matricula = k) ∧
    (∀ r ∈ (compare_pdf_spreadsheet pdfItems led).rows, r.matricula = k →
      r.importePDF = 0 ∧ r.diferencia = -(sumLed (ledStripped led) k)) ∧
    (∀ d : VehicleDetails, (k, d) ∈ (compare_pdf_spreadsheet pdfItems led).detailed →
      d.pdfTotal = 0 ∧ d.sheetTotal = sumLed (ledStripped led) k ∧
      d.difference = -(sumLed (ledStripped led) k) ∧ d.pdfItems = [] ∧
      d.potential_matches = []) ∧
    (1 / 100 ≤ |sumLed (ledStripped led) k| →
      ∃ d : VehicleDetails, (k, d) ∈ (compare_pdf_spreadsheet pdfItems led).detailed) := by
  have hknotitem : ∀ it ∈ pdfStripped pdfItems, it.matricula ≠ k := by
    intro it hit he
    exact hpdf (by rw [← he]; exact List.mem_map_of_mem _ hit)
  have hzero : sumPdf (pdfStripped pdfItems) k = 0 := sumPdf_eq_zero _ _ hknotitem
  have hkmem : k ∈ compKeys pdfItems led :=
    (mem_compKeys_iff pdfItems led k).mpr (List.mem_append_right _ hled)
  have hrow : mkRow k (sumPdf (pdfStripped pdfItems) k) (sumLed (ledStripped led) k) ∈
      compRows0 pdfItems led := List.mem_map_of_mem _ hkmem
  have hfilter : (pdfStripped pdfItems).filter (fun it => it.matricula == k) = [] :=
    List.filter_eq_nil_iff.mpr (fun it hit => by simpa using hknotitem it hit)
  have hdet : (compare_pdf_spreadsheet pdfItems led).detailed =
      ((compRows0 pdfItems led).filter (fun r => decide (1 / 100 ≤ |r.diferencia|))).map
        (fun r =>
          (r.matricula, detailsFor (pdfStripped pdfItems) r.matricula
            (sumLed (ledStripped led) r.matricula))) := rfl
  refine ⟨?_, ?_, ?_, ?_⟩
  · exact ⟨_, (mem_rows_iff pdfItems led _).mpr hrow, rfl⟩
  · intro r hr hrk
    rcases mem_compRows0 ((mem_rows_iff pdfItems led r).mp hr) with ⟨k', -, heq⟩
    subst heq
    have hk' : k' = k := hrk
    subst hk'
    exact ⟨hzero, by show sumPdf _ _ - sumLed _ _ = _; rw [hzero, zero_sub]⟩
  · intro d hd
    rw [hdet] at hd
    rcases List.mem_map.mp hd with ⟨r, -, heq⟩
    have hrk : r.matricula = k := congrArg Prod.fst heq
    have hdval : detailsFor (pdfStripped pdfItems) k (sumLed (ledStripped led) k) = d := by
      rw [← hrk]
      exact congrArg Prod.snd heq
    rw [← hdval]
    simp [detailsFor, hfilter]
  · intro hmism
    refine ⟨detailsFor (pdfStripped pdfItems) k (sumLed (ledStripped led) k), ?_⟩
    rw [hdet]
    have hdec : decide (1 / 100 ≤
        |(mkRow k (sumPdf (pdfStripped pdfItems) k)
            (sumLed (ledStripped led) k)).diferencia|) = true := by
      apply decide_eq_true
      show 1 / 100 ≤ |sumPdf (pdfStripped pdfItems) k - sumLed (ledStripped led) k|
      rw [hzero, zero_sub, abs_neg]
      exact hmism
    exact List.mem_map.mpr ⟨_, List.mem_filter.mpr ⟨hrow, hdec⟩, rfl⟩

/-- Claim C7 witness: the theorem applied to the concrete inputs where the
key JKL occurs only in the ledger, with amount 300. -/
theorem c7_witness :
    (∃ r ∈ (compare_pdf_spreadsheet pdfC7 ledC7).rows, r.matricula = "JKL") ∧
    (∀ r ∈ (compare_pdf_spreadsheet pdfC7 ledC7).rows, r.matricula = "JKL" →
      r.importePDF = 0 ∧ r.diferencia = -(sumLed (ledStripped ledC7) "JKL")) ∧
    (∀ d : VehicleDetails, ("JKL", d) ∈ (compare_pdf_spreadsheet pdfC7 ledC7).detailed →
      d.pdfTotal = 0 ∧ d.sheetTotal = sumLed (ledStripped ledC7) "JKL" ∧
      d.difference = -(sumLed (ledStripped ledC7) "JKL") ∧ d.pdfItems = [] ∧
      d.potential_matches = []) ∧
    (1 / 100 ≤ |sumLed (ledStripped ledC7) "JKL"| →
      ∃ d : VehicleDetails, ("JKL", d) ∈ (compare_pdf_spreadsheet pdfC7 ledC7).detailed) :=
  c7_theorem pdfC7 ledC7 "JKL" (by decide) (by decide)

/-- Claim C9 (amended): the comparison rows come out ordered by descending
absolute difference — true of the program for every input, since the final
sort orders by the absolute-difference key no matter how the underlying
sort breaks ties; but rows with equal absolute difference are NOT ordered
by a stable sort with ascending entity key as secondary key: on the tied
two-row fixture (AAA and BBB both at absolute difference 10, a frame small
enough that pandas really computes the reverse of a stable ascending pass)
the rows come out BBB before AAA, not in the ascending order such a
secondary sort would fix. -/
theorem c9_theorem (pdfItems : List LineItem) (led : List (String × ℚ)) :
    ((compare_pdf_spreadsheet pdfItems led).rows).Pairwise
      (fun r1 r2 => |r2.diferencia| ≤ |r1.diferencia|) ∧
    (compare_pdf_spreadsheet pdfC9 ledC9).rows.map (fun r => r.matricula) ≠
      ["AAA", "BBB"] := by
  constructor
  · have hsorted : (List.insertionSort RowRel (compRows0 pdfItems led)).Pairwise RowRel :=
      List.sorted_insertionSort RowRel (compRows0 pdfItems led)
    show ((List.insertionSort RowRel (compRows0 pdfItems led)).reverse).Pairwise _
    rw [List.pairwise_reverse]
    exact hsorted
  · have heval : (compare_pdf_spreadsheet pdfC9 ledC9).rows.map (fun r => r.matricula) =
        ["BBB", "AAA"] := by
      simp +decide [compare_pdf_spreadsheet, compRows0, compKeys, pdfStripped, ledStripped,
        pyStrip, stripChars, sumPdf, sumLed, mkRow, estadoOf, pdfC9, ledC9, mkItem,
        List.insertionSort, List.orderedInsert, RowRel, List.dedup,
        List.dedup_cons_of_not_mem]
    rw [heval]
    decide

/-- Claim C9 counterexample: with PDF item AAA of 10 and ledger entry BBB of
10 the two rows tie at absolute difference 10; the code emits them in
descending key order BBB, AAA — not the ascending order AAA, BBB that a
stable sort with entity key as secondary key would produce. -/
theorem c9_counterexample :
    (compare_pdf_spreadsheet pdfC9 ledC9).rows.map (fun r => r.matricula) =
      ["BBB", "AAA"] ∧
    (["BBB", "AAA"] : List String) ≠ ["AAA", "BBB"] := by
  constructor
  · simp +decide [compare_pdf_spreadsheet, compRows0, compKeys, pdfStripped, ledStripped,
      pyStrip, stripChars, sumPdf, sumLed, mkRow, estadoOf, pdfC9, ledC9, mkItem,
      List.insertionSort, List.orderedInsert, RowRel, List.dedup,
      List.dedup_cons_of_not_mem]
  · decide

theorem digit_ne (c : Char) (h : c.isDigit = true) :
    c ≠ '.' ∧ c ≠ ',' ∧ c ≠ '-' ∧ c ≠ '+' := by
  refine ⟨?_, ?_, ?_, ?_⟩ <;> intro hh <;> subst hh <;> exact absurd h (by decide)

theorem digit_bne_dot {c : Char} (h : c.isDigit = true) : (c != '.') = true :=
  bne_iff_ne.mpr (digit_ne c h).1

theorem takeWhile_digits (frac : List Char) :
    ∀ D : List Char, (∀ c ∈ D, c.isDigit = true) →
      (D ++ '.' :: frac).takeWhile (fun c => c != '.') = D ∧
      (D ++ '.' :: frac).dropWhile (fun c => c != '.') = '.' :: frac := by
  intro D
  induction D with
  | nil =>
    intro _
    constructor <;> simp [List.takeWhile_cons, List.dropWhile_cons]
  | cons d D' ih =>
    intro h
    have hd : (d != '.') = true := digit_bne_dot (h d (List.mem_cons_self d D'))
    obtain ⟨ht, hdp⟩ := ih (fun c hc => h c (List.mem_cons_of_mem d hc))
    constructor
    · show (d :: (D' ++ '.' :: frac)).takeWhile (fun c => c != '.') = d :: D'
      rw [List.takeWhile_cons, hd]
      simp [ht]
    · show (d :: (D' ++ '.' :: frac)).dropWhile (fun c => c != '.') = '.' :: frac
      rw [List.dropWhile_cons, hd]
      simp [hdp]

theorem sepJoin_filter :
    ∀ gs : List (List Char), (∀ c ∈ gs.foldr (· ++ ·) [], c.isDigit = true) →
      (sepJoin gs).filter (fun c => c != '.') = gs.foldr (· ++ ·) [] := by
  intro gs
  induction gs with
  | nil => intro _; rfl
  | cons g gs' ih =>
    intro h
    cases gs' with
    | nil =>
      show g.filter (fun c => c != '.') = g ++ []
      rw [List.append_nil]
      exact List.filter_eq_self.mpr
        (fun c hc => digit_bne_dot (h c (by simpa using hc)))
    | cons g2 gs'' =>
      show (g ++ '.' :: sepJoin (g2 :: gs'')).filter (fun c => c != '.') =
        g ++ (g2 :: gs'').foldr (· ++ ·) []
      rw [List.filter_append]
      have hg : g.filter (fun c => c != '.') = g :=
        List.filter_eq_self.mpr
          (fun c hc => digit_bne_dot (h c (List.mem_append_left _ hc)))
      have hdot : (('.' :: sepJoin (g2 :: gs'')).filter (fun c => c != '.')) =
          (sepJoin (g2 :: gs'')).filter (fun c => c != '.') := by
        rw [List.filter_cons]
        simp
      rw [hg, hdot, ih (fun c hc => h c (List.mem_append_right _ hc))]

theorem map_comma_digits :
    ∀ l : List Char, (∀ c ∈ l, c.isDigit = true) →
      l.map (fun c => if c = ',' then '.' else c) = l := by
  intro l
  induction l with
  | nil => intro _; rfl
  | cons c t ih =>
    intro h
    have hc : c ≠ ',' := (digit_ne c (h c (List.mem_cons_self c t))).2.1
    show (if c = ',' then '.' else c) :: t.map (fun c => if c = ',' then '.' else c) = c :: t
    rw [if_neg hc, ih (fun x hx => h x (List.mem_cons_of_mem c hx))]

theorem pyFloatCore_concat (sgn : ℚ) (D frac : List Char)
    (hD : ∀ c ∈ D, c.isDigit = true) (hf : ∀ c ∈ frac, c.isDigit = true) (hne : D ≠ []) :
    pyFloatCore sgn (D ++ '.' :: frac) =
      some (sgn * ((natOfDigits D : ℚ) + (natOfDigits frac : ℚ) / 10 ^ frac.length)) := by
  obtain ⟨t1, t2⟩ := takeWhile_digits frac D hD
  unfold pyFloatCore
  rw [t2]
  simp only [t1]
  have hall : (D ++ frac).all Char.isDigit = true :=
    List.all_eq_true.mpr
      (fun c hc => by
        rcases List.mem_append.mp hc with h | h
        · exact hD c h
        · exact hf c h)
  have hnemp : (D ++ frac).isEmpty = false := by
    cases D with
    | nil => exact absurd rfl hne
    | cons d D' => rfl
  rw [hall, hnemp]
  rfl

theorem pyFloatChars_concat (neg : Bool) (D frac : List Char)
    (hD : ∀ c ∈ D, c.isDigit = true) (hf : ∀ c ∈ frac, c.isDigit = true) (hne : D ≠ []) :
    pyFloatChars ((if neg then ['-'] else []) ++ D ++ '.' :: frac) =
      some ((if neg then (-1 : ℚ) else 1) *
        ((natOfDigits D : ℚ) + (natOfDigits frac : ℚ) / 10 ^ frac.length)) := by
  cases neg with
  | true =>
    show pyFloatChars ('-' :: (D ++ '.' :: frac)) = _
    have : pyFloatChars ('-' :: (D ++ '.' :: frac)) = pyFloatCore (-1) (D ++ '.' :: frac) := by
      show (if ('-' : Char) = '-' then pyFloatCore (-1) (D ++ '.' :: frac)
          else if ('-' : Char) = '+' then pyFloatCore 1 (D ++ '.' :: frac)
          else pyFloatCore 1 ('-' :: (D ++ '.' :: frac))) = _
      rw [if_pos rfl]
    rw [this, pyFloatCore_concat (-1) D frac hD hf hne]
    norm_num
  | false =>
    cases D with
    | nil => exact absurd rfl hne
    | cons d D' =>
      show pyFloatChars (d :: (D' ++ '.' :: frac)) = _
      have hdd := digit_ne d (hD d (List.mem_cons_self d D'))
      have : pyFloatChars (d :: (D' ++ '.' :: frac)) =
          pyFloatCore 1 (d :: (D' ++ '.' :: frac)) := by
        show (if d = '-' then pyFloatCore (-1) (D' ++ '.' :: frac)
            else if d = '+' then pyFloatCore 1 (D' ++ '.' :: frac)
            else pyFloatCore 1 (d :: (D' ++ '.' :: frac))) = _
        rw [if_neg hdd.2.2.1, if_neg hdd.2.2.2]
      rw [this]
      have heq : d :: (D' ++ '.' :: frac) = (d :: D') ++ '.' :: frac := rfl
      rw [heq, pyFloatCore_concat 1 (d :: D') frac hD hf hne]
      norm_num

/-- Claim C3: on every valid locale-formatted number — optional leading
minus, integer digits grouped with periods as thousands separators, one
comma as decimal separator before the fractional digits — the Numeric
Converter removes all periods, turns the comma into a period, and parses the
result as a signed float, returning exactly the signed value of the digits;
in particular it maps "1.399,5" to 1399.5 and "-12,30" to -12.30. -/
theorem c3_theorem (neg : Bool) (gs : List (List Char)) (frac : List Char)
    (hd : ∀ c ∈ gs.foldr (· ++ ·) [], c.isDigit = true)
    (hf : ∀ c ∈ frac, c.isDigit = true)
    (hne : gs.foldr (· ++ ·) [] ≠ []) :
    convert_str_to_float (localeRender neg gs frac) = some (localeValue neg gs frac) ∧
    convert_str_to_float "1.399,5" = some (13995 / 10) ∧
    convert_str_to_float "-12,30" = some (-1230 / 100) := by
  refine ⟨?_, ?_, ?_⟩
  · rw [convert_eq_chars]
    have hdata : (localeRender neg gs frac).data =
        (if neg then ['-'] else []) ++ sepJoin gs ++ ',' :: frac := rfl
    rw [hdata, List.filter_append, List.filter_append]
    have hsign : (if neg then ['-'] else []).filter (fun c => c != '.') =
        (if neg then ['-'] else []) := by cases neg <;> rfl
    have hfrac_filter : (',' :: frac).filter (fun c => c != '.') = ',' :: frac :=
      List.filter_eq_self.mpr
        (fun c hc => by
          rcases List.mem_cons.mp hc with rfl | hcf
          · decide
          · exact digit_bne_dot (hf c hcf))
    rw [hsign, sepJoin_filter gs hd, hfrac_filter, List.map_append, List.map_append]
    have hsignmap : (if neg then ['-'] else []).map (fun c => if c = ',' then '.' else c) =
        (if neg then ['-'] else []) := by cases neg <;> rfl
    have hfracmap : (',' :: frac).map (fun c => if c = ',' then '.' else c) =
        '.' :: frac := by
      show (if (',' : Char) = ',' then '.' else ',') ::
          frac.map (fun c => if c = ',' then '.' else c) = '.' :: frac
      rw [if_pos rfl, map_comma_digits frac hf]
    rw [hsignmap, map_comma_digits _ hd, hfracmap]
    unfold localeValue
    exact pyFloatChars_concat neg (gs.foldr (· ++ ·) []) frac hd hf hne
  · simp +decide [convert_str_to_float, pyFloat, pyFloatChars, pyFloatCore, natOfDigits,
      pyReplace, pyRemove, List.takeWhile_cons, List.dropWhile_cons]
    norm_num
  · simp +decide [convert_str_to_float, pyFloat, pyFloatChars, pyFloatCore, natOfDigits,
      pyReplace, pyRemove, List.takeWhile_cons, List.dropWhile_cons]
    norm_num

/-- Claim C3 witness: the theorem applied to the concrete rendering of
"1.399,5" (digit groups 1 and 399, fraction 5, no sign), whose value is
1399.5. -/
theorem c3_witness :
    convert_str_to_float (localeRender false [['1'], ['3', '9', '9']] ['5']) =
      some (localeValue false [['1'], ['3', '9', '9']] ['5']) :=
  (c3_theorem false [['1'], ['3', '9', '9']] ['5'] (by decide) (by decide) (by decide)).1
